import Mathlib

/-!
# Verification of the bug-detection-and-rectification engine

A shallow embedding of the `CodeAnalyzer` class of `bug_detector_app.py`:
the rule-based line scanner (`detect_bugs`), the structural checker for
Python (`python_ast_check`), and the fix-application subsystem
(`rectify_bug`, `apply_fixes`).

The line scanner matches Python `re` patterns against each line.  We embed
the exact fragment of regular-expression syntax used by the rule catalog
(literals, the classes `\w` `\s` `\d` `.` and negated sets, greedy and lazy
counted repetition of a class, capturing groups, alternation, negative
lookahead, the `$` anchor, and backreferences) as an executable
backtracking matcher whose alternative ordering reproduces `re.search`:
earlier start positions first, greedy repetition tries longer first, lazy
repetition shorter first, alternation left first.

`ast.parse` is an external collaborator (the CPython parser), not code of
the repository, so the structural checker is embedded as a function of the
parse outcome: either a syntax-error diagnostic or the walked node
sequence, restricted to the node shapes the checker inspects (`Assign`
targets, `Name` loads, `ExceptHandler`); all other nodes are `other`.
Concrete scenarios instantiate the parse outcome with the tree or error
that CPython produces on that input.
-/

namespace BugDetector

/-- One character class of the embedded regex fragment: `\w`, `\s`, `\d`,
`.` and negated sets such as `[^,)]`.  `\w` and the case predicates are
read at their ASCII meaning, which is exact for every document analysed in
this development. -/
inductive CharClass where
  | word
  | space
  | digit
  | dot
  | noneOf (cs : List Char)
deriving DecidableEq, Repr

def CharClass.mem : CharClass → Char → Bool
  | .word, c => c.isAlphanum || c == '_'
  | .space, c => c == ' ' || c == '\t' || c == '\n' || c == '\r' || c == '\x0b' || c == '\x0c'
  | .digit, c => c.isDigit
  | .dot, c => c != '\n'
  | .noneOf cs, c => !(cs.contains c)

/-- The regex fragment used by the rule catalog.  `rep p min greedy` is
`p{min,}` (so `p*`, `p+`, `p+?` arise as instances), `nla` is the negative
lookahead `(?! )`, `eos` is `$`, `bref` a backreference. -/
inductive RE where
  | eps
  | lit (c : Char)
  | cls (p : CharClass)
  | rep (p : CharClass) (mn : Nat) (greedy : Bool)
  | grp (n : Nat) (r : RE)
  | seq (a b : RE)
  | alt (a b : RE)
  | nla (r : RE)
  | eos
  | bref (n : Nat)
deriving Repr

/-- Captured groups: most recent capture first, as `re` keeps the last
capture of each group. -/
abbrev Caps := List (Nat × String)

/-- Length of the maximal run of characters of class `p` at the front. -/
def runLen (p : CharClass) : List Char → Nat
  | [] => 0
  | c :: cs => if p.mem c then runLen p cs + 1 else 0

/-- The candidate repetition counts for `p{min,}` on a maximal run of
length `m`, in the order the backtracking engine tries them: greedy
longest first, lazy shortest first. -/
def repCounts (mn m : Nat) (greedy : Bool) : List Nat :=
  if m < mn then []
  else if greedy then (List.range (m - mn + 1)).map (fun j => m - j)
  else (List.range (m - mn + 1)).map (fun j => mn + j)

/-- All ways a regex can match a prefix of the input, as
`(remaining input, captures)` pairs in backtracking priority order.  The
head of the list is the alternative Python's `re` commits to. -/
def matchRE : RE → List Char → Caps → List (List Char × Caps)
  | .eps, s, caps => [(s, caps)]
  | .lit c, s, caps =>
    match s with
    | [] => []
    | c' :: rest => if c' = c then [(rest, caps)] else []
  | .cls p, s, caps =>
    match s with
    | [] => []
    | c' :: rest => if p.mem c' then [(rest, caps)] else []
  | .rep p mn greedy, s, caps =>
    (repCounts mn (runLen p s) greedy).map (fun k => (s.drop k, caps))
  | .grp n r, s, caps =>
    (matchRE r s caps).map
      (fun rc => (rc.1, (n, String.mk (s.take (s.length - rc.1.length))) :: rc.2))
  | .seq a b, s, caps =>
    (matchRE a s caps).flatMap (fun rc => matchRE b rc.1 rc.2)
  | .alt a b, s, caps => matchRE a s caps ++ matchRE b s caps
  | .nla r, s, caps => if (matchRE r s caps).isEmpty then [(s, caps)] else []
  | .eos, s, caps => if s.isEmpty || s == ['\n'] then [(s, caps)] else []
  | .bref n, s, caps =>
    match caps.lookup n with
    | none => []
    | some v => if v.data.isPrefixOf s then [(s.drop v.data.length, caps)] else []

/-- `re.search` position scan: try each start position left to right and
commit to the first position admitting a match. -/
def searchAux (re : RE) : List Char → Option Caps
  | [] => ((matchRE re [] []).head?).map (·.2)
  | c :: t =>
    match (matchRE re (c :: t) []).head? with
    | some rc => some rc.2
    | none => searchAux re t

/-- `re.search` followed by `match.groups()`: `none` when the pattern does
not occur, otherwise the `n` captured groups in group-number order. -/
def reSearch (re : RE) (n : Nat) (s : String) : Option (List String) :=
  (searchAux re s.data).map
    (fun caps => (List.range n).map (fun k => (caps.lookup (k + 1)).getD ""))

/-! ## Regex notation helpers -/

def rseq (l : List RE) : RE := l.foldr RE.seq RE.eps

def rlit (s : String) : RE := rseq (s.data.map RE.lit)

def rep0 (p : CharClass) : RE := RE.rep p 0 true
def rep1 (p : CharClass) : RE := RE.rep p 1 true
def lazy1 (p : CharClass) : RE := RE.rep p 1 false

/-! ## The data model -/

/-- One finding, the dict
`{'type': ..., 'line': ..., 'description': ..., 'original': ..., 'fix': ...}`
of the source.  Findings produced by the structural checker carry no
`'original'` key, hence the `Option`.  `line` is an `Int` because the
parse-failure finding's line is `e.lineno or 0`. -/
structure Bug where
  btype : String
  line : Int
  description : String
  original : Option String
  fix : String
deriving DecidableEq, Repr

/-- The `{'bug_count': ..., 'bugs': ...}` result of `detect_bugs`. -/
structure DetectResult where
  bug_count : Nat
  bugs : List Bug
deriving DecidableEq, Repr

/-- One rule of `self.bug_patterns`:
`(regex, bug_type, description, fix_template)`, together with the number
of capture groups of the regex. -/
structure Rule where
  pattern : RE
  numGroups : Nat
  btype : String
  description : String
  template : String

/-! ## Python `str.format` on the catalog's templates -/

def lbrace : Char := Char.ofNat 123
def rbrace : Char := Char.ofNat 125
/-- A single-quote character, written via its code point. -/
def sq : String := String.singleton (Char.ofNat 39)

/-- `template.format(*args)` for the forms appearing in the catalog's fix
templates: a doubled brace is a literal brace, and a single-digit
placeholder in braces selects an argument positionally. -/
def pyFormatAux : List Char → List String → List Char
  | [], _ => []
  | [c], _ => [c]
  | [c, c2], _ =>
    if (c = lbrace ∧ c2 = lbrace) then [lbrace]
    else if (c = rbrace ∧ c2 = rbrace) then [rbrace]
    else [c, c2]
  | c :: c2 :: c3 :: r, args =>
    if c = lbrace then
      if c2 = lbrace then lbrace :: pyFormatAux (c3 :: r) args
      else if c2.isDigit ∧ c3 = rbrace then
        (args.getD (c2.toNat - 48) "").data ++ pyFormatAux r args
      else c :: pyFormatAux (c2 :: c3 :: r) args
    else if c = rbrace then
      if c2 = rbrace then rbrace :: pyFormatAux (c3 :: r) args
      else c :: pyFormatAux (c2 :: c3 :: r) args
    else c :: pyFormatAux (c2 :: c3 :: r) args

def pyFormat (template : String) (args : List String) : String :=
  String.mk (pyFormatAux template.data args)

/-! ## Line splitting and joining

`code.split('\n')` and `'\n'.join(lines)`, written as executable
structural recursions with Python's semantics (a split always yields at
least one segment; the empty string splits to `['']`). -/

def splitChars : List Char → List (List Char)
  | [] => [[]]
  | c :: r =>
    if c = '\n' then [] :: splitChars r
    else
      match splitChars r with
      | seg :: rest => (c :: seg) :: rest
      | [] => [[c]]

def splitLines (s : String) : List String := (splitChars s.data).map String.mk

def joinNl : List String → String
  | [] => ""
  | [x] => x
  | x :: y :: r => x ++ "\n" ++ joinNl (y :: r)

/-! ## The rule catalog (`self.bug_patterns`)

Each pattern is the direct transcription of the regex literal of the
source; fix templates are the source strings with braces written as
escapes. -/

/-- `for\s+(\w+)\s+in\s+(\w+)(?!\s*:)` -/
def pFor : RE :=
  rseq [rlit "for", rep1 .space, RE.grp 1 (rep1 .word), rep1 .space, rlit "in",
    rep1 .space, RE.grp 2 (rep1 .word), RE.nla (rseq [rep0 .space, rlit ":"])]

/-- `if\s+(.+?)(?!\s*:)$` -/
def pIf : RE :=
  rseq [rlit "if", rep1 .space, RE.grp 1 (lazy1 .dot),
    RE.nla (rseq [rep0 .space, rlit ":"]), RE.eos]

/-- `else(?!\s*:)` -/
def pElse : RE := rseq [rlit "else", RE.nla (rseq [rep0 .space, rlit ":"])]

/-- `(\w+)\s*=\s*(\w+)\s*/\s*len\((\w+)\)` -/
def pDivLen : RE :=
  rseq [RE.grp 1 (rep1 .word), rep0 .space, rlit "=", rep0 .space,
    RE.grp 2 (rep1 .word), rep0 .space, rlit "/", rep0 .space, rlit "len(",
    RE.grp 3 (rep1 .word), rlit ")"]

/-- `(\w+)\s*=\s*(\d+)\s*/\s*(\w+)` -/
def pDivVar : RE :=
  rseq [RE.grp 1 (rep1 .word), rep0 .space, rlit "=", rep0 .space,
    RE.grp 2 (rep1 .digit), rep0 .space, rlit "/", rep0 .space,
    RE.grp 3 (rep1 .word)]

/-- `(\w+)\s*==\s*"([^"]*)"` -/
def pStrCmp : RE :=
  rseq [RE.grp 1 (rep1 .word), rep0 .space, rlit "==", rep0 .space, rlit "\"",
    RE.grp 2 (RE.rep (.noneOf ['"']) 0 true), rlit "\""]

/-- `print\s*\(\s*([^,)]*)\s*\)` -/
def pPrint : RE :=
  rseq [rlit "print", rep0 .space, rlit "(", rep0 .space,
    RE.grp 1 (RE.rep (.noneOf [',', ')']) 0 true), rep0 .space, rlit ")"]

/-- `while\s+(.+?)(?!\s*:)$` -/
def pWhile : RE :=
  rseq [rlit "while", rep1 .space, RE.grp 1 (lazy1 .dot),
    RE.nla (rseq [rep0 .space, rlit ":"]), RE.eos]

/-- `def\s+(\w+)\s*\(([^)]*)\)(?!\s*:)` -/
def pDef : RE :=
  rseq [rlit "def", rep1 .space, RE.grp 1 (rep1 .word), rep0 .space, rlit "(",
    RE.grp 2 (RE.rep (.noneOf [')']) 0 true), rlit ")",
    RE.nla (rseq [rep0 .space, rlit ":"])]

/-- `except(?!\s+\w+:|:)` -/
def pExceptRule : RE :=
  rseq [rlit "except",
    RE.nla (RE.alt (rseq [rep1 .space, rep1 .word, rlit ":"]) (rlit ":"))]

/-- `(\w+)\s*\+=\s*(\w+)\s*\n\s*return\s+\1` -/
def pAugRet : RE :=
  rseq [RE.grp 1 (rep1 .word), rep0 .space, rlit "+=", rep0 .space,
    RE.grp 2 (rep1 .word), rep0 .space, rlit "\n", rep0 .space, rlit "return",
    rep1 .space, RE.bref 1]

/-- `if\s*\(.+\)\s*([^{])` -/
def pBraceIf : RE :=
  rseq [rlit "if", rep0 .space, rlit "(", RE.rep .dot 1 true, rlit ")",
    rep0 .space, RE.grp 1 (RE.cls (.noneOf [lbrace]))]

/-- `for\s*\(.+\)\s*([^{])` -/
def pBraceFor : RE :=
  rseq [rlit "for", rep0 .space, rlit "(", RE.rep .dot 1 true, rlit ")",
    rep0 .space, RE.grp 1 (RE.cls (.noneOf [lbrace]))]

/-- `var\s+(\w+)` -/
def pVar : RE := rseq [rlit "var", rep1 .space, RE.grp 1 (rep1 .word)]

def pythonRules : List Rule := [
  ⟨pFor, 2, "SyntaxError", "Missing colon after for loop", "for \x7b0\x7d in \x7b1\x7d:"⟩,
  ⟨pIf, 1, "SyntaxError", "Missing colon after if condition", "if \x7b0\x7d:"⟩,
  ⟨pElse, 0, "SyntaxError", "Missing colon after else", "else:"⟩,
  ⟨pDivLen, 3, "LogicError", "Potential division by zero",
    "\x7b0\x7d = \x7b1\x7d / len(\x7b2\x7d) if len(\x7b2\x7d) > 0 else 0"⟩,
  ⟨pDivVar, 3, "LogicError", "Potential division by zero",
    "\x7b0\x7d = \x7b1\x7d / \x7b2\x7d if \x7b2\x7d != 0 else 0"⟩,
  ⟨pStrCmp, 2, "StyleWarning", "String comparison could use single quotes",
    "\x7b0\x7d == " ++ sq ++ "\x7b1\x7d" ++ sq⟩,
  ⟨pPrint, 1, "DeprecationWarning", "Consider using f-strings for cleaner output",
    "print(f\"\x7b\x7b\x7b0\x7d\x7d\x7d\")"⟩,
  ⟨pWhile, 1, "SyntaxError", "Missing colon after while condition", "while \x7b0\x7d:"⟩,
  ⟨pDef, 2, "SyntaxError", "Missing colon after function definition",
    "def \x7b0\x7d(\x7b1\x7d):"⟩,
  ⟨pExceptRule, 0, "SyntaxError", "Invalid except clause", "except Exception:"⟩,
  ⟨pAugRet, 2, "LogicWarning", "Assignment before return without effect",
    "return \x7b0\x7d + \x7b1\x7d"⟩]

def javaRules : List Rule := [
  ⟨pBraceIf, 1, "SyntaxError", "Missing braces in if statement", "if (...) \x7b"⟩,
  ⟨pBraceFor, 1, "SyntaxError", "Missing braces in for loop", "for (...) \x7b"⟩]

def cppRules : List Rule := [
  ⟨pBraceFor, 1, "SyntaxError", "Missing braces in for loop", "for (...) \x7b"⟩]

def jsRules : List Rule := [
  ⟨pBraceIf, 1, "SyntaxError", "Missing braces in if statement", "if (...) \x7b"⟩,
  ⟨pVar, 1, "StyleWarning", "Using var instead of let/const", "const \x7b0\x7d"⟩]

/-- The `self.bug_patterns` dictionary. -/
def bug_patterns : List (String × List Rule) :=
  [("Python", pythonRules), ("Java", javaRules), ("C++", cppRules),
   ("JavaScript", jsRules)]

/-- `self.bug_patterns.get(language, [])`. -/
def rulesFor (language : String) : List Rule :=
  (bug_patterns.lookup language).getD []

/-! ## The structural checker (`python_ast_check`)

`ast.parse` is CPython's parser, an external collaborator.  Its outcome is
embedded as either the raised `SyntaxError` data (`e.lineno`, `str(e)`) or
the node sequence produced by `ast.walk(tree)`, restricted to the shapes
the checker inspects. -/

/-- The `ctx` of an `ast.Name` node. -/
inductive Ctx where
  | load
  | store
  | del
deriving DecidableEq, Repr

/-- One target of an `ast.Assign` node: an `ast.Name` or anything else
(tuple, attribute, subscript, ...). -/
inductive AstTarget where
  | name (id : String)
  | other
deriving DecidableEq, Repr

/-- One node of `ast.walk(tree)`, keeping only what `python_ast_check`
looks at: `Assign` (its `Name` targets and line), `Name` (id and context),
`ExceptHandler` (whether `type` is present, and line).  Every other node
kind is `other`. -/
inductive PyNode where
  | assign (targets : List AstTarget) (lineno : Int)
  | name (id : String) (ctx : Ctx)
  | exceptHandler (hasType : Bool) (lineno : Int)
  | other
deriving DecidableEq, Repr

/-- The data of the `SyntaxError` raised by `ast.parse`: `e.lineno` (which
may be absent) and the diagnostic `str(e)`. -/
structure ParseErr where
  lineno : Option Int
  msg : String
deriving DecidableEq, Repr

/-- Outcome of `ast.parse(code)`: the walked tree, or the syntax error. -/
abbrev ParseResult := Except ParseErr (List PyNode)

/-- `defined_vars`: identifiers that are `Name` targets of an `Assign`,
in walk order (the source collects them into a set; list membership below
is all that is ever used of it). -/
def definedVars (t : List PyNode) : List String :=
  t.flatMap fun
    | .assign ts _ => ts.filterMap fun | .name i => some i | .other => none
    | _ => []

/-- `used_vars`: identifiers of `Name` nodes whose context is `Load`. -/
def usedVars (t : List PyNode) : List String :=
  t.filterMap fun
    | .name i .load => some i
    | _ => none

/-- `unused = defined_vars - used_vars`.  The source iterates over a
Python set, whose order is unspecified (hash-dependent); the model
enumerates the difference in first-occurrence order.  Every property
proved below is independent of this order, and the concrete scenarios
have at most one unused identifier. -/
def unusedVars (t : List PyNode) : List String :=
  (definedVars t).dedup.filter (fun v => !(usedVars t).contains v)

/-- The description string `f"Unused variable '{var}'"`. -/
def unusedDesc (v : String) : String := "Unused variable " ++ sq ++ v ++ sq

/-- The finding for one `Assign` target matching identifier `v`. -/
def varBugTarget (v : String) (ln : Int) : AstTarget → Option Bug
  | .name i =>
    if i = v then
      some ⟨"StyleWarning", ln, unusedDesc v, none,
        "# Remove or use the variable " ++ sq ++ v ++ sq⟩
    else none
  | .other => none

/-- The findings of one walked node for identifier `v`: one per matching
`Name` target of an `Assign` node. -/
def varBugsNode (v : String) : PyNode → List Bug
  | .assign ts ln => ts.filterMap (varBugTarget v ln)
  | _ => []

/-- The inner loop of the unused-variable scan for one identifier `v`:
one finding per `Assign` node and matching `Name` target, at the node's
line. -/
def varBugs (t : List PyNode) (v : String) : List Bug :=
  t.flatMap (varBugsNode v)

def siteTarget (v : String) (ln : Int) : AstTarget → Option Int
  | .name i => if i = v then some ln else none
  | .other => none

def siteNode (v : String) : PyNode → List Int
  | .assign ts ln => ts.filterMap (siteTarget v ln)
  | _ => []

/-- The lines of the assignment sites (one per matching `Name` target of
an `Assign` node) of identifier `v`, in walk order. -/
def siteLines (t : List PyNode) (v : String) : List Int :=
  t.flatMap (siteNode v)

/-- The unused-variable findings: for each unused identifier, its
per-site findings. -/
def unusedBugs (t : List PyNode) : List Bug :=
  (unusedVars t).flatMap (varBugs t)

/-- The bare-except finding of one walked node: emitted for an
`ExceptHandler` whose `type` is `None`. -/
def bareExceptNode : PyNode → Option Bug
  | .exceptHandler hasType ln =>
    if hasType then none
    else some ⟨"LogicWarning", ln, "Bare except clause", none, "except Exception as e:"⟩
  | _ => none

/-- The bare-except findings: one per `ExceptHandler` whose `type` is
`None`. -/
def bareExceptBugs (t : List PyNode) : List Bug :=
  t.filterMap bareExceptNode

/-- `python_ast_check`, as a function of the parse outcome: on success the
unused-variable scan followed by the bare-except scan; on a parse failure
the single diagnostic finding `{'type': 'SyntaxError', 'line': e.lineno or
0, 'description': str(e), 'fix': '# Fix the syntax error: ' + str(e)}`. -/
def python_ast_check : ParseResult → List Bug
  | .ok t => unusedBugs t ++ bareExceptBugs t
  | .error e =>
    [⟨"SyntaxError", e.lineno.getD 0, e.msg, none, "# Fix the syntax error: " ++ e.msg⟩]

/-! ## The analysis engine (`detect_bugs`) -/

/-- The finding appended by the scanner for a rule matching a line:
`fix = fix_template.format(*groups) if groups else fix_template`, and
`original` is the unmodified line. -/
def mkScanBug (r : Rule) (i : Int) (line : String) (gs : List String) : Bug :=
  ⟨r.btype, i, r.description, some line,
    if gs.isEmpty then r.template else pyFormat r.template gs⟩

/-- The inner loop of `detect_bugs`: over the rules of the language, in
registration order, appending a finding for each rule whose pattern
occurs in the line. -/
def scanLineLoop (rules : List Rule) (i : Int) (line : String) (acc : List Bug) : List Bug :=
  rules.foldl
    (fun res r =>
      match reSearch r.pattern r.numGroups line with
      | some gs => res ++ [mkScanBug r i line gs]
      | none => res)
    acc

/-- The outer loop of `detect_bugs`: `for i, line in enumerate(lines, 1)`
accumulating findings. -/
def scanLoop (rules : List Rule) (lines : List String) : List Bug :=
  (lines.foldl
    (fun (st : List Bug × Int) line => (scanLineLoop rules st.2 line st.1, st.2 + 1))
    ([], 1)).1

/-- `detect_bugs(code, language)`, parametrised by the parse oracle that
stands for `ast.parse`.  The AST-based check runs exactly when
`language in self.ast_checkers`, i.e. for `'Python'`. -/
def detect_bugs (parse : String → ParseResult) (code language : String) : DetectResult :=
  let lines := splitLines code
  let results := scanLoop (rulesFor language) lines
  let results :=
    if language == "Python" then results ++ python_ast_check (parse code) else results
  ⟨results.length, results⟩

/-! ## The rectification engine (`rectify_bug`, `apply_fixes`) -/

/-- `rectify_bug(code, bug)`: replace line `bug.line` (1-based) when in
range, returning the new text and the replaced line; otherwise return the
text unchanged and no replaced line. -/
def rectify_bug (code : String) (bug : Bug) : String × Option String :=
  if 0 ≤ bug.line - 1 ∧ bug.line - 1 < ((splitLines code).length : Int) then
    (joinNl ((splitLines code).set (bug.line - 1).toNat bug.fix),
     some ((splitLines code).getD (bug.line - 1).toNat ""))
  else (code, none)

/-- One step of the `apply_fixes` loop: `lines[bug.line - 1] = bug.fix`
when the index is in range, else no-op. -/
def setBugLine (lines : List String) (bug : Bug) : List String :=
  if 0 ≤ bug.line - 1 ∧ bug.line - 1 < (lines.length : Int) then
    lines.set (bug.line - 1).toNat bug.fix
  else lines

/-- Stable insertion for the descending-by-line order: the inserted
element goes after every element with a strictly larger line and before
every element with an equal or smaller line. -/
def insertDescLine (b : Bug) : List Bug → List Bug
  | [] => [b]
  | x :: xs => if b.line < x.line then x :: insertDescLine b xs else b :: x :: xs

/-- `sorted(bugs, key=lambda x: x['line'], reverse=True)`: Python's sort
is stable also under `reverse=True`, so bugs with equal lines keep their
original relative order while lines descend. -/
def sortDescBugs : List Bug → List Bug
  | [] => []
  | b :: rest => insertDescLine b (sortDescBugs rest)

/-- The line-level body of `apply_fixes`: fold the in-range replacements
over the descending-sorted findings. -/
def applyFixesLines (lines : List String) (bugs : List Bug) : List String :=
  (sortDescBugs bugs).foldl setBugLine lines

/-- `apply_fixes(code, bugs)`. -/
def apply_fixes (code : String) (bugs : List Bug) : String :=
  joinNl (applyFixesLines (splitLines code) bugs)

/-! ## Spec-side scanner

Definitions following the specification's words (§4.1, §4.3), to be
compared with the loop translation above: for each line in ascending
order, for each rule in registration order, emit a finding for every
match (no early exit per line); `fixText` is the template with captured
groups substituted positionally, the template verbatim when the pattern
has no capture groups; `originalText` is the unmodified line. -/

/-- Spec-side findings of one line: all matching rules in registration
order. -/
def specLineFindings (rules : List Rule) (i : Int) (line : String) : List Bug :=
  rules.filterMap fun r =>
    (reSearch r.pattern r.numGroups line).map fun gs =>
      ⟨r.btype, i, r.description, some line,
        if r.numGroups = 0 then r.template else pyFormat r.template gs⟩

/-- Spec-side scan: lines in ascending order starting at `i`. -/
def specScan (rules : List Rule) : Int → List String → List Bug
  | _, [] => []
  | i, l :: ls => specLineFindings rules i l ++ specScan rules (i + 1) ls

/-! ## Concrete scenario data

The parse oracles below record what CPython's `ast.parse` does on the
concrete documents of the specification's scenarios (verified against
CPython: walk order is breadth-first, `Name` targets of `Assign` are
walked with `Store` context, operator and context nodes walk as plain
nodes). -/

/-- `ast.walk(ast.parse("x = 10 / y"))`:
`Module, Assign, Name(x,Store), BinOp, Store, Constant, Div, Name(y,Load), Load`. -/
def treeDivScenario : List PyNode :=
  [.other, .assign [.name "x"] 1, .name "x" .store, .other, .other, .other, .other,
   .name "y" .load, .other]

/-- `ast.walk(ast.parse("for i in data: pass"))`:
`Module, For, Name(i,Store), Name(data,Load), Pass, Store, Load`. -/
def treeForPass : List PyNode :=
  [.other, .other, .name "i" .store, .name "data" .load, .other, .other, .other]

/-- `ast.walk(ast.parse("unused = 5"))`:
`Module, Assign, Name(unused,Store), Constant, Store`. -/
def treeUnused : List PyNode :=
  [.other, .assign [.name "unused"] 1, .name "unused" .store, .other, .other]

/-- `ast.parse("for i in range(5)\n  print(i)")` raises `SyntaxError` with
`lineno = 1`; the diagnostic is the CPython 3.11 rendering.  (Every fact
proved about this scenario other than the diagnostic finding's text is
independent of the message string.) -/
def parseErrScenario1 : ParseErr :=
  ⟨some 1, "expected " ++ sq ++ ":" ++ sq ++ " (<unknown>, line 1)"⟩

/-- Parse oracle for scenario 1: the document fails to parse. -/
def parseScenario1 : String → ParseResult := fun _ => .error parseErrScenario1

/-- Parse oracle for scenario 2: `x = 10 / y` parses to `treeDivScenario`. -/
def parseScenario2 : String → ParseResult := fun _ => .ok treeDivScenario

/-- Parse oracle for the idempotence scenario: `for i in data: pass`
parses to `treeForPass`; the rewritten document `for i in dat:` fails to
parse (missing indented block after the for header, at line 1). -/
def parseIdem : String → ParseResult := fun s =>
  if s = "for i in data: pass" then .ok treeForPass
  else .error ⟨some 1, "expected an indented block after " ++ sq ++ "for" ++ sq
    ++ " statement on line 1 (<unknown>, line 1)"⟩

/-! # Theorems -/

/-! ## Scanner structure lemmas -/

theorem reSearch_length {re : RE} {n : Nat} {s : String} {gs : List String}
    (h : reSearch re n s = some gs) : gs.length = n := by
  unfold reSearch at h
  cases hs : searchAux re s.data with
  | none => simp [hs] at h
  | some caps => simp [hs] at h; subst h; simp

theorem mkScanBug_eq_spec (r : Rule) (i : Int) (l : String) (gs : List String)
    (h : reSearch r.pattern r.numGroups l = some gs) :
    mkScanBug r i l gs
      = ⟨r.btype, i, r.description, some l,
          if r.numGroups = 0 then r.template else pyFormat r.template gs⟩ := by
  have hlen := reSearch_length h
  unfold mkScanBug
  cases hn : r.numGroups with
  | zero =>
    have : gs = [] := List.length_eq_zero.mp (by rw [hlen, hn])
    simp [this]
  | succ m =>
    have : gs ≠ [] := by
      intro he; rw [he] at hlen; simp [hn] at hlen
    simp [List.isEmpty_iff, this, hn]

theorem scanLineLoop_eq (rules : List Rule) (i : Int) (l : String) (acc : List Bug) :
    scanLineLoop rules i l acc = acc ++ specLineFindings rules i l := by
  induction rules generalizing acc with
  | nil => simp [scanLineLoop, specLineFindings]
  | cons r rs ih =>
    unfold scanLineLoop specLineFindings
    simp only [List.foldl_cons, List.filterMap_cons]
    cases h : reSearch r.pattern r.numGroups l with
    | none => simpa [h, scanLineLoop, specLineFindings] using ih acc
    | some gs =>
      simp only [h, Option.map_some']
      have := ih (acc ++ [mkScanBug r i l gs])
      simp only [scanLineLoop, specLineFindings] at this
      rw [this, mkScanBug_eq_spec r i l gs h]
      simp

theorem scanLoop_eq_aux (rules : List Rule) (lines : List String) :
    ∀ (acc : List Bug) (i : Int),
      (lines.foldl
        (fun (st : List Bug × Int) line => (scanLineLoop rules st.2 line st.1, st.2 + 1))
        (acc, i)).1
      = acc ++ specScan rules i lines := by
  induction lines with
  | nil => intro acc i; simp [specScan]
  | cons l ls ih =>
    intro acc i
    simp only [List.foldl_cons, specScan]
    rw [ih (scanLineLoop rules i l acc) (i + 1), scanLineLoop_eq]
    simp

theorem scanLoop_eq (rules : List Rule) (lines : List String) :
    scanLoop rules lines = specScan rules 1 lines := by
  unfold scanLoop
  rw [scanLoop_eq_aux]
  simp

theorem specLineFindings_mem {rules : List Rule} {i : Int} {l : String} {b : Bug}
    (h : b ∈ specLineFindings rules i l) : b.line = i ∧ b.original = some l := by
  unfold specLineFindings at h
  rw [List.mem_filterMap] at h
  obtain ⟨r, _, hr⟩ := h
  cases hs : reSearch r.pattern r.numGroups l with
  | none => rw [hs] at hr; simp at hr
  | some gs => rw [hs] at hr; simp at hr; rw [← hr]; exact ⟨rfl, rfl⟩

theorem specScan_mem {rules : List Rule} {i : Int} {ls : List String} {b : Bug}
    (h : b ∈ specScan rules i ls) :
    ∃ k : Nat, k < ls.length ∧ b.line = i + k ∧ b.original = ls[k]? := by
  induction ls generalizing i with
  | nil => simp [specScan] at h
  | cons l ls ih =>
    rw [specScan, List.mem_append] at h
    rcases h with h | h
    · obtain ⟨h1, h2⟩ := specLineFindings_mem h
      exact ⟨0, by simp, by simpa using h1, by simpa using h2⟩
    · obtain ⟨k, hk, h1, h2⟩ := ih h
      refine ⟨k + 1, by simpa using hk, ?_, by simpa using h2⟩
      rw [h1]; push_cast; ring

theorem specScan_pairwise (rules : List Rule) (i : Int) (ls : List String) :
    (specScan rules i ls).Pairwise (fun a b => a.line ≤ b.line) := by
  induction ls generalizing i with
  | nil => simp [specScan]
  | cons l ls ih =>
    rw [specScan, List.pairwise_append]
    refine ⟨?_, ih (i + 1), ?_⟩
    · refine List.pairwise_of_forall_mem_list ?_
      intro a ha b hb
      rw [(specLineFindings_mem ha).1, (specLineFindings_mem hb).1]
    · intro a ha b hb
      rw [(specLineFindings_mem ha).1]
      obtain ⟨k, _, hk, _⟩ := specScan_mem hb
      rw [hk]
      omega

/-- C6.  The findings of `detect_bugs` are the line-scanner findings —
equal to the spec-side scan: lines in ascending order, and within a line
every matching rule in registration order with no early exit, `fixText`
rendered positionally from the captured groups (the template verbatim
when the pattern has no groups), `originalText` the unmodified line —
followed, exactly for the one language with a syntax checker, by the
checker's findings, with no re-sorting by line.  The second conjunct is
the ascending-line ordering of the scanner part, the third ties each
scanner finding's `originalText` to the line it was scanned from. -/
theorem detect_bugs_ordering (parse : String → ParseResult) (code language : String) :
    (detect_bugs parse code language).bugs
        = specScan (rulesFor language) 1 (splitLines code)
          ++ (if language == "Python" then python_ast_check (parse code) else [])
      ∧ (specScan (rulesFor language) 1 (splitLines code)).Pairwise
          (fun a b => a.line ≤ b.line)
      ∧ ∀ b ∈ specScan (rulesFor language) 1 (splitLines code),
          b.original = (splitLines code)[(b.line - 1).toNat]? := by
  refine ⟨?_, specScan_pairwise _ _ _, ?_⟩
  · unfold detect_bugs
    cases h : language == "Python" <;> simp [h, scanLoop_eq]
  · intro b hb
    obtain ⟨k, _, h1, h2⟩ := specScan_mem hb
    have : (b.line - 1).toNat = k := by omega
    rw [this, h2]

/-- Witness for C6: the ordering theorem instantiated on a JavaScript
document, tying the one scanner finding of `var x = 1` to its line. -/
theorem detect_bugs_ordering_witness :
    (⟨"StyleWarning", 1, "Using var instead of let/const", some "var x = 1",
        "const x"⟩ : Bug)
      ∈ specScan (rulesFor "JavaScript") 1 (splitLines "var x = 1")
    ∧ (⟨"StyleWarning", 1, "Using var instead of let/const", some "var x = 1",
        "const x"⟩ : Bug).original
      = (splitLines "var x = 1")[(((⟨"StyleWarning", 1,
          "Using var instead of let/const", some "var x = 1", "const x"⟩ : Bug).line
            - 1).toNat)]? :=
  ⟨by decide,
   (detect_bugs_ordering (fun _ => .ok []) "var x = 1" "JavaScript").2.2 _ (by decide)⟩

/-- C9.  The `bug_count` field of a `detect_bugs` result equals the length
of its findings list: the result is constructed as
`{'bug_count': len(results), 'bugs': results}`. -/
theorem detect_bugs_count_eq_length (parse : String → ParseResult) (code language : String) :
    (detect_bugs parse code language).bug_count
      = (detect_bugs parse code language).bugs.length := rfl

theorem specScan_nil_rules (i : Int) (ls : List String) : specScan [] i ls = [] := by
  induction ls generalizing i with
  | nil => rfl
  | cons l ls ih => rw [specScan, ih]; rfl

/-- C10.  A language tag outside the registered set selects the empty rule
list (`bug_patterns.get(language, [])`) and no syntax checker, so
`detect_bugs` returns count `0` and no findings rather than failing. -/
theorem detect_bugs_unknown_language (parse : String → ParseResult) (code language : String)
    (h : language ∉ ["Python", "Java", "C++", "JavaScript"]) :
    detect_bugs parse code language = ⟨0, []⟩ := by
  simp only [List.mem_cons, List.not_mem_nil, or_false, not_or] at h
  obtain ⟨h1, h2, h3, h4⟩ := h
  have b1 : (language == "Python") = false := by simpa using h1
  have b2 : (language == "Java") = false := by simpa using h2
  have b3 : (language == "C++") = false := by simpa using h3
  have b4 : (language == "JavaScript") = false := by simpa using h4
  have hr : rulesFor language = [] := by
    simp only [rulesFor, bug_patterns, List.lookup, b1, b2, b3, b4]
    rfl
  unfold detect_bugs
  rw [hr, b1]
  simp [scanLoop_eq, specScan_nil_rules]

/-- Witness for C10 at the unregistered tag `"Ruby"`. -/
theorem detect_bugs_unknown_language_witness :
    detect_bugs (fun _ => .ok []) "x = 1" "Ruby" = ⟨0, []⟩ :=
  detect_bugs_unknown_language _ _ _ (by decide)

/-- C8.  When the parse fails, `python_ast_check` returns exactly one
finding of category `SyntaxError` whose line is the parser's best-effort
line (`e.lineno or 0`) and whose message is the parser diagnostic; the
unused-binding and bare-except scans are skipped, and — the checker being
a total function — nothing propagates to the caller. -/
theorem parse_failure_single_finding (e : ParseErr) :
    python_ast_check (.error e)
      = [⟨"SyntaxError", e.lineno.getD 0, e.msg, none,
          "# Fix the syntax error: " ++ e.msg⟩] := rfl

/-! ## The concrete scenarios of §8 -/

/-- C4, counterexample.  On `for i in range(5)\n  print(i)` the analysis
does not return exactly one finding: the scanner reports the for-rule at
line 1 (with fix `for i in range:`, the `\w+` group having captured only
`range`) and the print-rule at line 2, and the failed parse contributes a
third finding. -/
theorem scenario1_counterexample :
    ¬ (detect_bugs parseScenario1 "for i in range(5)\n  print(i)" "Python").bug_count = 1 := by
  decide

/-- C4, amended.  On `for i in range(5)\n  print(i)` with any parse
oracle reporting the parse failure (as CPython does), the analysis
returns exactly three findings: the scanner's for-rule `SyntaxError` at
line 1 with fix `for i in range:`, the scanner's `DeprecationWarning` at
line 2 for the print call, and the structural checker's diagnostic
finding for the failed parse. -/
theorem scenario1_actual (parse : String → ParseResult) (e : ParseErr)
    (hp : parse "for i in range(5)\n  print(i)" = .error e) :
    (detect_bugs parse "for i in range(5)\n  print(i)" "Python").bugs
      = [⟨"SyntaxError", 1, "Missing colon after for loop", some "for i in range(5)",
          "for i in range:"⟩,
         ⟨"DeprecationWarning", 2, "Consider using f-strings for cleaner output",
          some "  print(i)", "print(f\"\x7bi\x7d\")"⟩,
         ⟨"SyntaxError", e.lineno.getD 0, e.msg, none,
          "# Fix the syntax error: " ++ e.msg⟩] := by
  have hscan : scanLoop (rulesFor "Python") (splitLines "for i in range(5)\n  print(i)")
      = [⟨"SyntaxError", 1, "Missing colon after for loop", some "for i in range(5)",
          "for i in range:"⟩,
         ⟨"DeprecationWarning", 2, "Consider using f-strings for cleaner output",
          some "  print(i)", "print(f\"\x7bi\x7d\")"⟩] := by decide
  unfold detect_bugs
  rw [hp]
  simp [hscan, python_ast_check]

/-- Witness for C4's amended theorem: the modelled CPython parse outcome
of the scenario document discharges the hypothesis. -/
theorem scenario1_actual_witness :
    (detect_bugs parseScenario1 "for i in range(5)\n  print(i)" "Python").bugs
      = [⟨"SyntaxError", 1, "Missing colon after for loop", some "for i in range(5)",
          "for i in range:"⟩,
         ⟨"DeprecationWarning", 2, "Consider using f-strings for cleaner output",
          some "  print(i)", "print(f\"\x7bi\x7d\")"⟩,
         ⟨"SyntaxError", parseErrScenario1.lineno.getD 0, parseErrScenario1.msg, none,
          "# Fix the syntax error: " ++ parseErrScenario1.msg⟩] :=
  scenario1_actual parseScenario1 parseErrScenario1 rfl

/-- C5, counterexample.  On `x = 10 / y` the analysis does not return
exactly one finding: besides the scanner's `LogicError`, the structural
checker reports `x` as an unused variable. -/
theorem scenario2_counterexample :
    ¬ (detect_bugs parseScenario2 "x = 10 / y" "Python").bug_count = 1 := by
  decide

/-- C5, amended.  On `x = 10 / y` the analysis returns exactly two
findings: the scanner's `LogicError` at line 1 with the guarded-division
fix exactly as the scenario describes it, followed by the structural
checker's `StyleWarning` at line 1 reporting the unused variable `x`. -/
theorem scenario2_actual :
    (detect_bugs parseScenario2 "x = 10 / y" "Python").bugs
      = [⟨"LogicError", 1, "Potential division by zero", some "x = 10 / y",
          "x = 10 / y if y != 0 else 0"⟩,
         ⟨"StyleWarning", 1, unusedDesc "x", none,
          "# Remove or use the variable " ++ sq ++ "x" ++ sq⟩] := by
  decide

/-- C3.  The idempotence property fails on the code: on the parseable
document `for i in data: pass` the for-rule fires (its `\w+` group
backtracks to `dat` to defeat the `(?!\s*:)` lookahead), `apply_fixes`
rewrites the line to `for i in dat:`, and re-analysis reports the very
same rule — `SyntaxError`, line 1, `Missing colon after for loop` — on
the fixed line again (now proposing `for i in da:`), contradicting the
rule's own description and the specification. -/
theorem for_rule_retriggers :
    apply_fixes "for i in data: pass"
        (detect_bugs parseIdem "for i in data: pass" "Python").bugs
      = "for i in dat:"
    ∧ (detect_bugs parseIdem "for i in dat:" "Python").bugs.head?
        = some ⟨"SyntaxError", 1, "Missing colon after for loop", some "for i in dat:",
            "for i in da:"⟩ := by
  exact ⟨by decide, by decide⟩

/-! ## The unused-binding scan (C7) -/

theorem unusedDesc_inj {v w : String} (h : unusedDesc v = unusedDesc w) : v = w := by
  have h2 := congrArg String.data h
  simp only [unusedDesc, String.data_append] at h2
  exact String.ext (List.append_cancel_left (List.append_cancel_right h2))

theorem bare_ne_unusedDesc (v : String) : ¬ "Bare except clause" = unusedDesc v := by
  intro h
  have hlen := congrArg String.length h
  simp only [unusedDesc, String.length_append] at hlen
  rw [show ("Bare except clause").length = 18 from rfl,
    show ("Unused variable ").length = 16 from rfl, show sq.length = 1 from rfl] at hlen
  have hv : v.length = 0 := by omega
  have hve : v = "" := by
    cases v with
    | mk d =>
      cases d with
      | nil => rfl
      | cons c cs => simp [String.length] at hv
  subst hve
  exact absurd h (by decide)

theorem varBugTarget_eq_some {v : String} {ln : Int} {tg : AstTarget} {b : Bug}
    (h : varBugTarget v ln tg = some b) :
    b = ⟨"StyleWarning", ln, unusedDesc v, none,
      "# Remove or use the variable " ++ sq ++ v ++ sq⟩ := by
  cases tg with
  | name i =>
    rw [show varBugTarget v ln (.name i)
        = if i = v then
            some ⟨"StyleWarning", ln, unusedDesc v, none,
              "# Remove or use the variable " ++ sq ++ v ++ sq⟩
          else none from rfl] at h
    split at h
    · injection h with h2
      exact h2.symm
    · exact absurd h (by simp)
  | other => exact absurd h (by simp [varBugTarget])

theorem varBugs_fields {t : List PyNode} {v : String} {b : Bug} (h : b ∈ varBugs t v) :
    b.btype = "StyleWarning" ∧ b.description = unusedDesc v := by
  unfold varBugs at h
  rw [List.mem_flatMap] at h
  obtain ⟨n, _, hn⟩ := h
  cases n with
  | assign ts ln =>
    rw [show varBugsNode v (.assign ts ln) = ts.filterMap (varBugTarget v ln) from rfl,
      List.mem_filterMap] at hn
    obtain ⟨tg, _, ht⟩ := hn
    rw [varBugTarget_eq_some ht]
    exact ⟨rfl, rfl⟩
  | name i c => simp [varBugsNode] at hn
  | exceptHandler ty ln => simp [varBugsNode] at hn
  | other => simp [varBugsNode] at hn

theorem bareExceptBugs_desc {t : List PyNode} {b : Bug} (h : b ∈ bareExceptBugs t) :
    b.description = "Bare except clause" := by
  unfold bareExceptBugs at h
  rw [List.mem_filterMap] at h
  obtain ⟨n, _, hn⟩ := h
  cases n with
  | assign ts ln => simp [bareExceptNode] at hn
  | name i c => simp [bareExceptNode] at hn
  | exceptHandler ty ln =>
    rw [show bareExceptNode (.exceptHandler ty ln)
        = if ty then none
          else some ⟨"LogicWarning", ln, "Bare except clause", none,
            "except Exception as e:"⟩ from rfl] at hn
    split at hn
    · exact absurd hn (by simp)
    · injection hn with hn2
      rw [← hn2]
  | other => simp [bareExceptNode] at hn

theorem filter_varBugs_self (t : List PyNode) (v : String) :
    (varBugs t v).filter (fun b => b.description == unusedDesc v) = varBugs t v := by
  rw [List.filter_eq_self]
  intro b hb
  simp [(varBugs_fields hb).2]

theorem filter_varBugs_other {t : List PyNode} {v w : String} (hvw : w ≠ v) :
    (varBugs t w).filter (fun b => b.description == unusedDesc v) = [] := by
  rw [List.filter_eq_nil_iff]
  intro b hb
  rw [(varBugs_fields hb).2]
  simp only [beq_iff_eq]
  exact fun heq => hvw (unusedDesc_inj heq)

theorem filter_flatMap_varBugs (t : List PyNode) (v : String) :
    ∀ us : List String, us.Nodup →
      (us.flatMap (varBugs t)).filter (fun b => b.description == unusedDesc v)
        = if v ∈ us then varBugs t v else [] := by
  intro us
  induction us with
  | nil => simp
  | cons w ws ih =>
    intro hnd
    rw [List.flatMap_cons, List.filter_append, ih (List.nodup_cons.mp hnd).2]
    by_cases hw : w = v
    · have hv : v ∉ ws := hw ▸ (List.nodup_cons.mp hnd).1
      rw [hw, filter_varBugs_self, if_neg hv, if_pos (List.mem_cons_self _ _)]
      simp
    · rw [filter_varBugs_other hw]
      by_cases hm : v ∈ ws
      · rw [if_pos hm, if_pos (List.mem_cons_of_mem _ hm)]
        simp
      · rw [if_neg hm, if_neg (by
          rw [List.mem_cons]
          exact fun hc => hc.elim (fun he => hw he.symm) hm)]
        simp

theorem varBugs_map_pairs (t : List PyNode) (v : String) :
    (varBugs t v).map (fun b => (b.btype, b.line))
      = (siteLines t v).map (fun ln => ("StyleWarning", ln)) := by
  unfold varBugs siteLines
  induction t with
  | nil => rfl
  | cons n ns ih =>
    rw [List.flatMap_cons, List.flatMap_cons, List.map_append, List.map_append, ih]
    congr 1
    cases n with
    | assign ts ln =>
      rw [show varBugsNode v (.assign ts ln) = ts.filterMap (varBugTarget v ln) from rfl,
        show siteNode v (.assign ts ln) = ts.filterMap (siteTarget v ln) from rfl]
      induction ts with
      | nil => rfl
      | cons tg tgs iht =>
        rw [List.filterMap_cons, List.filterMap_cons]
        cases tg with
        | name i =>
          by_cases hiv : i = v <;>
            simp [varBugTarget, siteTarget, hiv, iht]
        | other => simpa [varBugTarget, siteTarget] using iht
    | name i c => rfl
    | exceptHandler ty ln => rfl
    | other => rfl

/-- C7.  For any parsed tree and identifier `v`: if `v` is the target of
some assignment and is read nowhere (no `Load` of `v` anywhere in the
tree), the structural checker emits exactly one `StyleWarning` finding
per assignment site of `v` (per matching `Name` target of an `Assign`
node), each at its site's line; any read of `v` anywhere in the tree
suppresses all findings for `v`.  The second conjunct is the concrete
scenario: a document assigning `unused = 5` and never reading it yields
exactly one `StyleWarning` at the assignment's line. -/
theorem unused_binding_per_site (t : List PyNode) (v : String) :
    ((python_ast_check (.ok t)).filter (fun b => b.description == unusedDesc v)).map
        (fun b => (b.btype, b.line))
      = (if v ∈ definedVars t ∧ v ∉ usedVars t
         then (siteLines t v).map (fun ln => ("StyleWarning", ln))
         else [])
    ∧ python_ast_check (.ok treeUnused)
        = [⟨"StyleWarning", 1, unusedDesc "unused", none,
            "# Remove or use the variable " ++ sq ++ "unused" ++ sq⟩] := by
  constructor
  · show ((unusedBugs t ++ bareExceptBugs t).filter _).map _ = _
    have hbare : (bareExceptBugs t).filter (fun b => b.description == unusedDesc v) = [] := by
      rw [List.filter_eq_nil_iff]
      intro b hb
      rw [bareExceptBugs_desc hb]
      simp only [beq_iff_eq]
      exact bare_ne_unusedDesc v
    rw [List.filter_append, hbare, List.append_nil]
    unfold unusedBugs
    rw [filter_flatMap_varBugs t v (unusedVars t)
      ((List.nodup_dedup (definedVars t)).filter _)]
    have hmem : v ∈ unusedVars t ↔ v ∈ definedVars t ∧ v ∉ usedVars t := by
      unfold unusedVars
      rw [List.mem_filter, List.mem_dedup]
      simp [List.elem_iff]
    by_cases hv : v ∈ definedVars t ∧ v ∉ usedVars t
    · rw [if_pos (hmem.mpr hv), if_pos hv, varBugs_map_pairs]
    · rw [if_neg (fun hc => hv (hmem.mp hc)), if_neg hv]
      rfl
  · decide

/-! ## Rectification -/

/-- C2.  `rectify_bug` with an in-range 1-based line returns the document
with exactly that line replaced by the finding's fix (same length, that
index now the fix, every other index unchanged) together with the
replaced line's original text; with an out-of-range line it returns the
document unchanged and no replaced line.  Being a total function, it
raises nothing in either case. -/
theorem rectify_bug_spec (code : String) (bug : Bug) :
    (1 ≤ bug.line ∧ bug.line ≤ ((splitLines code).length : Int) →
      rectify_bug code bug
          = (joinNl ((splitLines code).set (bug.line - 1).toNat bug.fix),
             some ((splitLines code).getD (bug.line - 1).toNat ""))
        ∧ ((splitLines code).set (bug.line - 1).toNat bug.fix).length
            = (splitLines code).length
        ∧ ((splitLines code).set (bug.line - 1).toNat bug.fix)[(bug.line - 1).toNat]?
            = some bug.fix
        ∧ ∀ j : Nat, j ≠ (bug.line - 1).toNat →
            ((splitLines code).set (bug.line - 1).toNat bug.fix)[j]?
              = (splitLines code)[j]?)
    ∧ ((bug.line < 1 ∨ ((splitLines code).length : Int) < bug.line) →
        rectify_bug code bug = (code, none)) := by
  constructor
  · rintro ⟨ha, hb⟩
    have hlt : (bug.line - 1).toNat < (splitLines code).length := by omega
    refine ⟨?_, List.length_set .., List.getElem?_set_self hlt, ?_⟩
    · unfold rectify_bug
      rw [if_pos ⟨by omega, by omega⟩]
    · intro j hj
      exact List.getElem?_set_ne (Ne.symm hj)
  · intro h
    unfold rectify_bug
    rw [if_neg (by omega)]

/-- Witness for C2: an in-range and an out-of-range rectification of a
three-line document. -/
theorem rectify_bug_spec_witness :
    rectify_bug "a\nb\nc" ⟨"T", 2, "d", none, "Z"⟩
        = (joinNl ((splitLines "a\nb\nc").set 1 "Z"),
           some ((splitLines "a\nb\nc").getD 1 ""))
    ∧ rectify_bug "a\nb\nc" ⟨"T", 9, "d", none, "Z"⟩ = ("a\nb\nc", none) :=
  ⟨((rectify_bug_spec "a\nb\nc" ⟨"T", 2, "d", none, "Z"⟩).1 (by decide)).1,
   (rectify_bug_spec "a\nb\nc" ⟨"T", 9, "d", none, "Z"⟩).2 (by decide)⟩

/-! ## Fix application: stable descending sort and last-wins -/

theorem length_setBugLine (lines : List String) (b : Bug) :
    (setBugLine lines b).length = lines.length := by
  unfold setBugLine
  split <;> simp

theorem foldl_setBugLine_getElem (L : List Bug) (lines : List String) (i : Nat)
    (hi : i < lines.length) :
    (L.foldl setBugLine lines)[i]?
      = ((L.filter (fun x => x.line == (i : Int) + 1)).getLast?).elim lines[i]?
          (fun b => some b.fix) := by
  induction L generalizing lines with
  | nil => simp
  | cons b rest ih =>
    rw [List.foldl_cons, List.filter_cons]
    have hi' : i < (setBugLine lines b).length := by rw [length_setBugLine]; exact hi
    rw [ih (setBugLine lines b) hi']
    cases hrest : rest.filter (fun x => x.line == (i : Int) + 1) with
    | cons y ys =>
      have hne : (y :: ys).getLast? ≠ none := by simp [List.getLast?_eq_none_iff]
      obtain ⟨z, hz⟩ := Option.ne_none_iff_exists'.mp hne
      cases hcond : (b.line == (i : Int) + 1) <;> simp [hcond, hrest, hz]
    | nil =>
      cases hcond : (b.line == (i : Int) + 1) with
      | true =>
        have hbl : b.line = (i : Int) + 1 := by simpa using hcond
        have hset : setBugLine lines b = lines.set i b.fix := by
          unfold setBugLine
          rw [if_pos ⟨by omega, by omega⟩]
          congr 1
          omega
        simp [hcond, hrest, hset, List.getElem?_set_self hi]
      | false =>
        have hbl : ¬ b.line = (i : Int) + 1 := by simpa using hcond
        have hset : (setBugLine lines b)[i]? = lines[i]? := by
          unfold setBugLine
          split
          · exact List.getElem?_set_ne (by omega)
          · rfl
        simp [hcond, hrest, hset]

theorem filter_insertDescLine (k : Int) (b : Bug) (L : List Bug) :
    (insertDescLine b L).filter (fun x => x.line == k)
      = if b.line == k then b :: L.filter (fun x => x.line == k)
        else L.filter (fun x => x.line == k) := by
  induction L with
  | nil => simp [insertDescLine, List.filter_cons]
  | cons x xs ih =>
    unfold insertDescLine
    split
    · next hlt =>
      rw [List.filter_cons, ih]
      cases hbk : (b.line == k) with
      | true =>
        have : (x.line == k) = false := by
          have : b.line = k := by simpa using hbk
          simp only [beq_eq_false_iff_ne, ne_eq]
          omega
        simp [this, List.filter_cons]
      | false => simp [List.filter_cons]
    · simp [List.filter_cons]

theorem filter_sortDescBugs (k : Int) (L : List Bug) :
    (sortDescBugs L).filter (fun x => x.line == k)
      = L.filter (fun x => x.line == k) := by
  induction L with
  | nil => rfl
  | cons b rest ih =>
    rw [sortDescBugs, filter_insertDescLine, ih, List.filter_cons]

/-- C1.  `apply_fixes` processes the findings stably sorted by line
descending against the original line-index space, so on any line targeted
by at least one in-range finding the resulting text is the `fixText` of
the finding occurring last among that line's findings in the original
input order (last-applied-wins under a stable descending sort). -/
theorem apply_fixes_last_duplicate_wins (code : String) (bugs : List Bug)
    (lineNo : Int) (b : Bug)
    (hlast : (bugs.filter (fun x => x.line == lineNo)).getLast? = some b)
    (h1 : 1 ≤ lineNo) (h2 : lineNo ≤ ((splitLines code).length : Int)) :
    (applyFixesLines (splitLines code) bugs)[(lineNo - 1).toNat]? = some b.fix := by
  have hi : (lineNo - 1).toNat < (splitLines code).length := by omega
  unfold applyFixesLines
  rw [foldl_setBugLine_getElem _ _ _ hi]
  have hcast : ((((lineNo - 1).toNat : Nat) : Int)) + 1 = lineNo := by omega
  rw [show (fun x : Bug => x.line == (((lineNo - 1).toNat : Nat) : Int) + 1)
        = (fun x : Bug => x.line == lineNo) by rw [hcast]]
  rw [filter_sortDescBugs, hlast]
  rfl

/-- Witness for C1: the scenario with findings at lines `{2, 5, 2}`; line
2 of the result carries the fix of the later duplicate. -/
theorem apply_fixes_last_duplicate_wins_witness :
    (([⟨"T", 2, "d", none, "X"⟩, ⟨"T", 5, "d", none, "Y"⟩,
        ⟨"T", 2, "d", none, "Z"⟩] : List Bug).filter
          (fun x => x.line == 2)).getLast? = some ⟨"T", 2, "d", none, "Z"⟩
    ∧ (applyFixesLines (splitLines "a\nb\nc\nd\ne")
        [⟨"T", 2, "d", none, "X"⟩, ⟨"T", 5, "d", none, "Y"⟩,
         ⟨"T", 2, "d", none, "Z"⟩])[((2 : Int) - 1).toNat]? = some "Z" :=
  ⟨by decide,
   apply_fixes_last_duplicate_wins "a\nb\nc\nd\ne"
     [⟨"T", 2, "d", none, "X"⟩, ⟨"T", 5, "d", none, "Y"⟩, ⟨"T", 2, "d", none, "Z"⟩]
     2 ⟨"T", 2, "d", none, "Z"⟩ (by decide) (by decide) (by decide)⟩

end BugDetector
